/-
Verification of the event-tagging and metrics-aggregation core of
`src/PerformanceMetrics.py` (basketball play-tagging tool).

The Python source is shallowly embedded:

* an `Event` is the dict appended by `add_log` (all fields snapshotted as
  strings, `points` an integer);
* the Streamlit `st.session_state` dict becomes the `AppState` structure
  (UI-only input buffers such as `new_play` are not modelled);
* pandas dataframes become `List Event`; `compute_metrics`' groupby/sum/sort
  pipeline is translated group-key by group-key, with pandas floats modelled
  exactly as rationals (`ℚ`);
* Python `str.strip()` / `str.lower()` become `pyStrip` / `pyLower` acting on
  the character list underlying a `String`;
* the pandas `sort_values(by=["PPP", "Attempts"], ascending=[False, False])`
  call becomes `List.insertionSort` on the corresponding lexicographic
  relation (pandas' default quicksort specifies no tie order, and neither
  does the spec, so any correct sort is a faithful model of the row order).
-/
import Mathlib

/-- One entry of `st.session_state["log"]`: the dict built by `add_log`
(source lines 38-48). `timestamp` is the `datetime.now()` string, passed in
as an explicit argument `now` in this embedding. -/
structure Event where
  timestamp : String
  opponent : String
  game_date : String
  quarter : String
  player : String
  play : String
  result : String
  points : Nat
deriving DecidableEq, Repr

/-- Source `points_from_result` (lines 35-36):
`{"Made 2": 2, "Made 3": 3, "Missed 2": 0, "Missed 3": 0, "Foul": 0}.get(result, 0)`. -/
def points_from_result (result : String) : Nat :=
  if result = "Made 2" then 2
  else if result = "Made 3" then 3
  else if result = "Missed 2" then 0
  else if result = "Missed 3" then 0
  else if result = "Foul" then 0
  else 0

/-- A roster entry: `{"name": str, "img_bytes": bytes|None, "img_url": str|None}`
(source line 24); bytes are modelled as an opaque list of naturals. -/
structure Player where
  name : String
  img_bytes : Option (List Nat)
  img_url : Option String
deriving DecidableEq, Repr

/-- The relevant fields of `st.session_state` (source `init_state`,
lines 14-28). UI text-input buffers (`new_play`, `new_player_name`, ...)
carry no core behaviour and are omitted. -/
structure AppState where
  plays : List String
  log : List Event
  selected_play : Option String
  selected_player : Option String
  opponent : String
  game_date : String
  quarter : String
  players : List Player
deriving Repr

/-- Source `add_log(play, result, player)` (lines 38-48): appends the event
dict, snapshotting opponent/date/quarter from the session state and deriving
`points` via `points_from_result`. `now` stands for
`datetime.now().strftime(...)`. -/
def add_log (st : AppState) (play result player now : String) : AppState :=
  { st with log := st.log ++ [{
      timestamp := now
      opponent := st.opponent
      game_date := st.game_date
      quarter := st.quarter
      player := player
      play := play
      result := result
      points := points_from_result result }] }

/-- The player-select button handler (source lines 225-227): sets
`selected_player` and deliberately keeps `selected_play` as-is
("user may switch players quickly"). -/
def select_player (st : AppState) (name : String) : AppState :=
  { st with selected_player := some name }

/-- The play-select button handler (source lines 247-248): sets
`selected_play`. -/
def select_play (st : AppState) (play : String) : AppState :=
  { st with selected_play := some play }

/-- The "Undo Last (Global)" handler (source lines 265-270):
`if log: log.pop(); toast removed else toast nothing`. The boolean reports
whether an event was removed (which of the two toasts fired). -/
def undo_last_global (st : AppState) : AppState × Bool :=
  if st.log = [] then (st, false)
  else ({ st with log := st.log.dropLast }, true)

/-- Helper for the "Undo Last (For Player)" loop (source lines 273-279):
the Python code scans indices from `len(log)-1` down to `0` and pops the
first entry whose `player` equals `pl`; equivalently, it removes the last
matching entry. `none` corresponds to the loop's `else` branch (no match). -/
def remove_last_for (log : List Event) (pl : String) : Option (List Event) :=
  match log with
  | [] => none
  | e :: rest =>
    match remove_last_for rest pl with
    | some rest2 => some (e :: rest2)
    | none => if e.player = pl then some rest else none

/-- The "Undo Last (For Player)" handler (source lines 271-279), on the log
and the player name it searches for (the source passes
`st.session_state["selected_player"]`). The boolean reports whether a tag
was removed. -/
def undo_last_for_player (log : List Event) (pl : String) : List Event × Bool :=
  match remove_last_for log pl with
  | some log2 => (log2, true)
  | none => (log, false)

/-- Python `str.strip()`: drop leading and trailing whitespace. -/
def pyStrip (s : String) : String :=
  ⟨((s.data.dropWhile Char.isWhitespace).reverse.dropWhile Char.isWhitespace).reverse⟩

/-- Python `str.lower()`: lowercase every character. -/
def pyLower (s : String) : String :=
  ⟨s.data.map Char.toLower⟩

/-- Source `add_player(name, img_bytes, img_url)` (lines 90-99): strip the
name, drop it if empty, drop it (with a sidebar warning) if its lowercase
form is already in the roster's lowercased name set, else append. -/
def add_player (players : List Player) (name : String)
    (img_bytes : Option (List Nat)) (img_url : Option String) : List Player :=
  let n := pyStrip name
  if n = "" then players
  else if (players.map fun p => pyLower p.name).contains (pyLower n) then players
  else players ++ [{ name := n, img_bytes := img_bytes, img_url := img_url }]

/-- The character class kept by `re.sub(r"[^A-Za-z0-9_\-\.]", "", s)`
(source line 32). -/
def isSafeChar (c : Char) : Bool :=
  decide (('A' ≤ c ∧ c ≤ 'Z') ∨ ('a' ≤ c ∧ c ≤ 'z') ∨ ('0' ≤ c ∧ c ≤ '9')
    ∨ c = '_' ∨ c = '-' ∨ c = '.')

/-- Source `safe_filename` (lines 30-33): `s.strip().replace(" ", "_")`
followed by removal of all characters outside `[A-Za-z0-9_.-]`. The
single-character `replace` is the map sending `' '` to `'_'`. -/
def safe_filename (s : String) : String :=
  ⟨((pyStrip s).data.map fun c => if c = ' ' then '_' else c).filter isSafeChar⟩

/-- One row of the dataframe returned by `compute_metrics`; `key` is the
`Play`/`Player` label column. pandas float columns are modelled as `ℚ`. -/
structure MetricsRow where
  key : String
  attempts : Nat
  points : Nat
  ppp : ℚ
  frequency : ℚ
  success_rate : ℚ
deriving DecidableEq, Repr

/-- Source `log_df.groupby(group_col).size()[k]` (line 57): the number of
events whose grouping value is `k`. -/
def attemptsOf (log : List Event) (g : Event → String) (k : String) : Nat :=
  (log.filter fun e => g e == k).length

/-- Source `log_df.groupby(group_col)["points"].sum()[k]` (line 58). -/
def pointsOf (log : List Event) (g : Event → String) (k : String) : Nat :=
  ((log.filter fun e => g e == k).map Event.points).sum

/-- Source `log_df["result"].isin(["Made 2", "Made 3"])` (line 65). -/
def isMade (r : String) : Bool :=
  r == "Made 2" || r == "Made 3"

/-- Source `log_df["result"].isin(["Made 2", "Made 3", "Missed 2", "Missed 3"])`
(source line 66). -/
def isShot (r : String) : Bool :=
  r == "Made 2" || r == "Made 3" || r == "Missed 2" || r == "Missed 3"

/-- Source `log_df[made_mask].groupby(group_col).size().get(k, 0)` (at
lines 67, 71). -/
def madeOf (log : List Event) (g : Event → String) (k : String) : Nat :=
  (log.filter fun e => g e == k && isMade e.result).length

/-- Source `log_df[att_mask].groupby(group_col).size().get(k, 0)` (at
lines 68, 72). -/
def shotOf (log : List Event) (g : Event → String) (k : String) : Nat :=
  (log.filter fun e => g e == k && isShot e.result).length

/-- The distinct grouping values, one per output row (pandas `groupby`
partitions by distinct key; it lists keys sorted ascending, but every
property stated about the table is invariant under the pre-sort key order,
which the final `sort_values` reorders anyway). -/
def groupKeys (log : List Event) (g : Event → String) : List String :=
  (log.map g).dedup

/-- Source `total_attempts = metrics["Attempts"].sum()` (line 62). -/
def totalAttempts (log : List Event) (g : Event → String) : Nat :=
  ((groupKeys log g).map (attemptsOf log g)).sum

/-- The denominator `(total_attempts if total_attempts else 1)` of the
Frequency column (source line 63). -/
def freqDenom (log : List Event) (g : Event → String) : Nat :=
  if totalAttempts log g = 0 then 1 else totalAttempts log g

/-- The row of the metrics dataframe for group value `k` (source
lines 57-75): Attempts, Points, `PPP = Points/Attempts`,
`Frequency = Attempts/(total_attempts or 1)`, and
`Success Rate = made/shots` with a `0.0` default when the group has no
shot attempts (source lines 70-73). -/
def mkRow (log : List Event) (g : Event → String) (k : String) : MetricsRow :=
  { key := k
    attempts := attemptsOf log g k
    points := pointsOf log g k
    ppp := (pointsOf log g k : ℚ) / (attemptsOf log g k : ℚ)
    frequency := (attemptsOf log g k : ℚ) / (freqDenom log g : ℚ)
    success_rate :=
      if shotOf log g k = 0 then 0
      else (madeOf log g k : ℚ) / (shotOf log g k : ℚ) }

/-- The comparison realised by
`sort_values(by=["PPP", "Attempts"], ascending=[False, False])`
(source line 77): descending PPP, ties by descending Attempts. -/
def rowOrder (a b : MetricsRow) : Prop :=
  b.ppp < a.ppp ∨ (a.ppp = b.ppp ∧ b.attempts ≤ a.attempts)

instance : DecidableRel rowOrder := fun a b => by
  unfold rowOrder; infer_instance

instance : IsTotal MetricsRow rowOrder := by
  constructor
  intro a b
  rcases lt_trichotomy a.ppp b.ppp with h | h | h
  · exact Or.inr (Or.inl h)
  · rcases Nat.le_total b.attempts a.attempts with h2 | h2
    · exact Or.inl (Or.inr ⟨h, h2⟩)
    · exact Or.inr (Or.inr ⟨h.symm, h2⟩)
  · exact Or.inl (Or.inl h)

instance : IsTrans MetricsRow rowOrder := by
  constructor
  intro a b c hab hbc
  rcases hab with h1 | ⟨h1, h1a⟩
  · rcases hbc with h2 | ⟨h2, _⟩
    · exact Or.inl (h2.trans h1)
    · exact Or.inl (h2 ▸ h1)
  · rcases hbc with h2 | ⟨h2, h2a⟩
    · exact Or.inl (h1 ▸ h2)
    · exact Or.inr ⟨h1.trans h2, h2a.trans h1a⟩

/-- Source `compute_metrics(log_df, group_col)` (lines 50-78): empty input
gives the empty table; otherwise one row per distinct grouping value, sorted
by (PPP desc, Attempts desc). -/
def compute_metrics (log : List Event) (g : Event → String) : List MetricsRow :=
  if log = [] then []
  else List.insertionSort rowOrder ((groupKeys log g).map (mkRow log g))

/-- The two-event log of Scenario A: `P1` / `Made 2` / `X` then
`P1` / `Missed 2` / `X`, with `points` derived as `add_log` derives it. -/
def scenarioA : List Event :=
  [ { timestamp := "", opponent := "", game_date := "", quarter := ""
      player := "X", play := "P1", result := "Made 2"
      points := points_from_result "Made 2" },
    { timestamp := "", opponent := "", game_date := "", quarter := ""
      player := "X", play := "P1", result := "Missed 2"
      points := points_from_result "Missed 2" } ]

/-- Shared concrete data for witnesses. -/
def demoEventX : Event :=
  { timestamp := "", opponent := "", game_date := "", quarter := ""
    player := "X", play := "P1", result := "Made 2", points := 2 }

/-- A second concrete event for player `X` (a foul). -/
def demoEventX2 : Event :=
  { timestamp := "", opponent := "", game_date := "", quarter := ""
    player := "X", play := "P2", result := "Foul", points := 0 }

/-- A concrete two-event log. -/
def demoLog : List Event := [demoEventX, demoEventX2]

/-- A concrete session state with empty stores. -/
def baseState : AppState :=
  { plays := [], log := [], selected_play := none, selected_player := none
    opponent := "", game_date := "", quarter := "", players := [] }

/-- A concrete roster holding one player named `Smith`. -/
def smithRoster : List Player :=
  [{ name := "Smith", img_bytes := none, img_url := none }]

/-- C3: `points_from_result` is total and pure with the fixed mapping
(`Made 2` to 2, `Made 3` to 3, the other recognised results and any
unrecognised string to 0), and every event appended by `add_log` carries
`points = points_from_result result`, so every event of the resulting log is
either an old entry or points-consistent with its result. -/
theorem points_from_result_total_and_logged :
    (points_from_result "Made 2" = 2 ∧ points_from_result "Made 3" = 3 ∧
     points_from_result "Missed 2" = 0 ∧ points_from_result "Missed 3" = 0 ∧
     points_from_result "Foul" = 0) ∧
    (∀ r : String,
      r ∉ ["Made 2", "Made 3", "Missed 2", "Missed 3", "Foul"] →
      points_from_result r = 0) ∧
    (∀ (st : AppState) (play result player now : String),
      (add_log st play result player now).log =
        st.log ++ [{ timestamp := now, opponent := st.opponent
                     game_date := st.game_date, quarter := st.quarter
                     player := player, play := play, result := result
                     points := points_from_result result }]) ∧
    (∀ (st : AppState) (play result player now : String),
      ∀ e ∈ (add_log st play result player now).log,
        e ∈ st.log ∨ e.points = points_from_result e.result) := by
  refine ⟨⟨rfl, rfl, rfl, rfl, rfl⟩, ?_, fun st play result player now => rfl, ?_⟩
  · intro r hr
    simp only [List.mem_cons, List.not_mem_nil, or_false, not_or] at hr
    obtain ⟨h1, h2, h3, h4, h5⟩ := hr
    simp [points_from_result, h1, h2, h3, h4, h5]
  · intro st play result player now e he
    simp only [add_log, List.mem_append, List.mem_singleton] at he
    rcases he with h | rfl
    · exact Or.inl h
    · exact Or.inr rfl

/-- Witness for C3 at concrete inputs: the unrecognised string `Dunk` maps
to 0, and the event appended by a concrete `add_log` call is
points-consistent. -/
theorem points_from_result_total_and_logged_witness :
    ("Dunk" ∉ ["Made 2", "Made 3", "Missed 2", "Missed 3", "Foul"] ∧
      points_from_result "Dunk" = 0) ∧
    (demoEventX ∈ (add_log baseState "P1" "Made 2" "X" "").log ∧
      (demoEventX ∈ baseState.log ∨
        demoEventX.points = points_from_result demoEventX.result)) :=
  ⟨⟨by decide, points_from_result_total_and_logged.2.1 "Dunk" (by decide)⟩,
   ⟨by decide,
    points_from_result_total_and_logged.2.2.2 baseState "P1" "Made 2" "X" ""
      demoEventX (by decide)⟩⟩

/-- C7: `undo_last_global` on an empty log is a reported no-op leaving the
whole state unchanged, and on a log ending in event `e` it removes exactly
that most recently appended event. -/
theorem undo_last_global_spec :
    (∀ st : AppState, st.log = [] → undo_last_global st = (st, false)) ∧
    (∀ (st : AppState) (l : List Event) (e : Event),
      st.log = l ++ [e] →
      undo_last_global st = ({ st with log := l }, true)) := by
  constructor
  · intro st h
    simp [undo_last_global, h]
  · intro st l e h
    simp [undo_last_global, h]

/-- Witness for C7: Scenario C (undo on the empty log is a no-op) and an
undo on a one-event log removing that event. -/
theorem undo_last_global_spec_witness :
    (baseState.log = [] ∧ undo_last_global baseState = (baseState, false)) ∧
    ((AppState.log { baseState with log := [demoEventX] } = [] ++ [demoEventX]) ∧
      undo_last_global { baseState with log := [demoEventX] } =
        ({ baseState with log := [] }, true)) :=
  ⟨⟨rfl, undo_last_global_spec.1 baseState rfl⟩,
   ⟨rfl, undo_last_global_spec.2 { baseState with log := [demoEventX] } []
      demoEventX rfl⟩⟩

/-- C9: `select_player` never modifies `selected_play`, and the Scenario E
sequence select player `A`, select play `Pick`, select player `B` ends with
player `B` and play `Pick` both selected. -/
theorem select_player_preserves_selected_play :
    (∀ (st : AppState) (p : String),
      (select_player st p).selected_play = st.selected_play) ∧
    (∀ st : AppState,
      (select_player (select_play (select_player st "A") "Pick") "B").selected_player
          = some "B" ∧
      (select_player (select_play (select_player st "A") "Pick") "B").selected_play
          = some "Pick") :=
  ⟨fun _ _ => rfl, fun _ => ⟨rfl, rfl⟩⟩

/-- C10: every character of `safe_filename s` lies in `[A-Za-z0-9_.-]`
(unsafe characters are removed, never an error), no space survives, and on
the concrete input `" ab cd/e "` the leading/trailing whitespace is trimmed,
the interior space becomes an underscore and the slash is removed. -/
theorem safe_filename_chars_safe :
    (∀ s : String, ∀ c ∈ (safe_filename s).data, isSafeChar c = true) ∧
    (∀ s : String, ' ' ∉ (safe_filename s).data) ∧
    safe_filename " ab cd/e " = "ab_cde" := by
  have h1 : ∀ s : String, ∀ c ∈ (safe_filename s).data, isSafeChar c = true := by
    intro s c hc
    exact (List.mem_filter.mp hc).2
  refine ⟨h1, ?_, by decide⟩
  intro s hsp
  have := h1 s ' ' hsp
  simp [isSafeChar] at this

/-- Witness for C10: the concrete character `a` of `safe_filename "ab"` is
in the safe class. -/
theorem safe_filename_chars_safe_witness :
    ('a' ∈ (safe_filename "ab").data ∧ isSafeChar 'a' = true) ∧
    (' ' ∈ (safe_filename "a b").data → False) :=
  ⟨⟨by decide, safe_filename_chars_safe.1 "ab" 'a' (by decide)⟩,
   fun h => safe_filename_chars_safe.2.1 "a b" h⟩

/-- Packing a small scalar value into a `Char` and unpacking it is the
identity. -/
theorem toNat_ofNat_valid {n : Nat} (h : n < 55296) :
    (Char.ofNat n).toNat = n := by
  rw [Char.ofNat, dif_pos (Or.inl h)]
  rfl

/-- Lowercasing a character neither creates nor destroys whitespace:
`A`-`Z` are not whitespace and map into `a`-`z`, and every other character
is fixed. -/
theorem isWhitespace_toLower (c : Char) :
    (Char.toLower c).isWhitespace = c.isWhitespace := by
  unfold Char.toLower
  show (if c.toNat ≥ 65 ∧ c.toNat ≤ 90 then Char.ofNat (c.toNat + 32)
    else c).isWhitespace = c.isWhitespace
  split
  · rename_i h
    have hm : (Char.ofNat (c.toNat + 32)).toNat = c.toNat + 32 :=
      toNat_ofNat_valid (by omega)
    have h1 : (Char.ofNat (c.toNat + 32)).isWhitespace = false := by
      simp only [Char.isWhitespace, Bool.or_eq_false_iff,
        decide_eq_false_iff_not]
      refine ⟨⟨⟨?_, ?_⟩, ?_⟩, ?_⟩ <;> intro he <;> rw [he] at hm
      · rw [show (' ').toNat = 32 from rfl] at hm
        omega
      · rw [show ('\t').toNat = 9 from rfl] at hm
        omega
      · rw [show ('\x0d').toNat = 13 from rfl] at hm
        omega
      · rw [show ('\n').toNat = 10 from rfl] at hm
        omega
    have h2 : c.isWhitespace = false := by
      simp only [Char.isWhitespace, Bool.or_eq_false_iff,
        decide_eq_false_iff_not]
      refine ⟨⟨⟨?_, ?_⟩, ?_⟩, ?_⟩ <;> rintro rfl <;> revert h <;> decide
    rw [h1, h2]
  · rfl

/-- Python's `strip` and `lower` commute. -/
theorem pyStrip_pyLower (s : String) :
    pyStrip (pyLower s) = pyLower (pyStrip s) := by
  show String.mk _ = String.mk _
  congr 1
  show ((((s.data.map Char.toLower).dropWhile Char.isWhitespace).reverse).dropWhile
      Char.isWhitespace).reverse
    = (((s.data.dropWhile Char.isWhitespace).reverse.dropWhile
      Char.isWhitespace).reverse).map Char.toLower
  have hw : (Char.isWhitespace ∘ Char.toLower) = Char.isWhitespace :=
    funext fun c => isWhitespace_toLower c
  rw [List.dropWhile_map, hw, ← List.map_reverse, List.dropWhile_map, hw,
    ← List.map_reverse]

/-- C8: on any roster whose stored names are stripped (as `add_player`
guarantees for every roster the program builds), if some entry's name
equals the new name `n` up to case-insensitive comparison, `add_player`
leaves the roster completely unchanged: the add is dropped (with a sidebar
warning in the source), no exception. -/
theorem add_player_duplicate_noop (players : List Player) (n : String)
    (hroster : ∀ p ∈ players, pyStrip p.name = p.name)
    (hdup : ∃ p ∈ players, pyLower p.name = pyLower n)
    (img_bytes : Option (List Nat)) (img_url : Option String) :
    add_player players n img_bytes img_url = players := by
  obtain ⟨p, hp, hlow⟩ := hdup
  have hkey : pyLower (pyStrip n) = pyLower p.name := by
    have hc := congrArg pyStrip hlow
    rw [pyStrip_pyLower, pyStrip_pyLower, hroster p hp] at hc
    exact hc.symm
  simp only [add_player]
  by_cases h0 : pyStrip n = ""
  · simp [h0]
  · rw [if_neg h0, if_pos]
    have hmem : pyLower (pyStrip n) ∈ players.map fun q => pyLower q.name :=
      List.mem_map.mpr ⟨p, hp, hkey.symm⟩
    simpa using hmem

/-- Witness for C8, Scenario D: adding `smith` to a roster already holding
`Smith` leaves the roster (of size 1) unchanged. -/
theorem add_player_duplicate_noop_witness :
    ((∀ p ∈ smithRoster, pyStrip p.name = p.name) ∧
      (∃ p ∈ smithRoster, pyLower p.name = pyLower "smith")) ∧
    add_player smithRoster "smith" none none = smithRoster :=
  ⟨⟨by decide, by decide⟩,
   add_player_duplicate_noop smithRoster "smith" (by decide) (by decide)
     none none⟩

/-- If no event of the log belongs to player `pl`, the reverse scan finds
nothing. -/
theorem remove_last_for_eq_none {log : List Event} {pl : String}
    (h : ∀ e ∈ log, e.player ≠ pl) : remove_last_for log pl = none := by
  induction log with
  | nil => rfl
  | cons e rest ih =>
    have hrest : remove_last_for rest pl = none :=
      ih fun x hx => h x (List.mem_cons_of_mem _ hx)
    simp [remove_last_for, hrest, h e (List.mem_cons_self _ _)]

/-- If `e` is the last event of player `pl` in the log, the reverse scan
removes exactly `e`. -/
theorem remove_last_for_eq_some {l1 l2 : List Event} {e : Event} {pl : String}
    (he : e.player = pl) (h2 : ∀ x ∈ l2, x.player ≠ pl) :
    remove_last_for (l1 ++ e :: l2) pl = some (l1 ++ l2) := by
  induction l1 with
  | nil =>
    simp [remove_last_for, remove_last_for_eq_none h2, he]
  | cons a l1 ih =>
    simp [remove_last_for, ih]

/-- C6: `undo_last_for_player` leaves the log entirely unchanged and
reports a no-op when no event belongs to player `pl`, and otherwise removes
exactly the most recent (highest-index) event of player `pl`, leaving every
other entry in its original relative order. -/
theorem undo_last_for_player_spec (log : List Event) (pl : String) :
    ((∀ e ∈ log, e.player ≠ pl) →
      undo_last_for_player log pl = (log, false)) ∧
    (∀ (l1 l2 : List Event) (e : Event),
      log = l1 ++ e :: l2 → e.player = pl → (∀ x ∈ l2, x.player ≠ pl) →
      undo_last_for_player log pl = (l1 ++ l2, true)) := by
  constructor
  · intro h
    simp [undo_last_for_player, remove_last_for_eq_none h]
  · intro l1 l2 e hlog he h2
    subst hlog
    simp [undo_last_for_player, remove_last_for_eq_some he h2]

/-- Witness for C6: Scenario B (undo for player `Y` on a log with no `Y`
events is a no-op) and the removal of the most recent `X` event from a
two-event log of player `X`. -/
theorem undo_last_for_player_spec_witness :
    ((∀ e ∈ demoLog, e.player ≠ "Y") ∧
      undo_last_for_player demoLog "Y" = (demoLog, false)) ∧
    ((demoLog = [demoEventX] ++ demoEventX2 :: [] ∧ demoEventX2.player = "X" ∧
        (∀ x ∈ ([] : List Event), x.player ≠ "X")) ∧
      undo_last_for_player demoLog "X" = ([demoEventX] ++ [], true)) :=
  ⟨⟨by decide, (undo_last_for_player_spec demoLog "Y").1 (by decide)⟩,
   ⟨⟨by decide, by decide, by decide⟩,
    (undo_last_for_player_spec demoLog "X").2 [demoEventX] [] demoEventX2
      (by decide) (by decide) (by decide)⟩⟩

/-- A row is in the metrics table of a non-empty log exactly when it is the
row built for one of the distinct grouping values. -/
theorem mem_compute_metrics {log : List Event} {g : Event → String}
    (h : log ≠ []) {row : MetricsRow} :
    row ∈ compute_metrics log g ↔
      ∃ k ∈ groupKeys log g, mkRow log g k = row := by
  unfold compute_metrics
  rw [if_neg h, (List.perm_insertionSort rowOrder _).mem_iff, List.mem_map]

/-- Each group's event count, read off the grouping column: the size of the
fiber of `g` over `k` is the number of occurrences of `k` in `log.map g`. -/
theorem attemptsOf_eq_count (log : List Event) (g : Event → String)
    (k : String) : attemptsOf log g k = (log.map g).count k := by
  rw [attemptsOf, List.count_eq_countP, List.countP_eq_length_filter,
    List.filter_map, List.length_map]
  rfl

/-- The Attempts column totals the length of the log: the groups partition
the events. -/
theorem totalAttempts_eq_length (log : List Event) (g : Event → String) :
    totalAttempts log g = log.length := by
  unfold totalAttempts groupKeys
  rw [funext fun k => attemptsOf_eq_count log g k,
    List.sum_map_count_dedup_eq_length, List.length_map]

/-- The sum of the Attempts column of the returned table equals
`totalAttempts` (sorting permutes the rows). -/
theorem sum_output_attempts (log : List Event) (g : Event → String)
    (h : log ≠ []) :
    ((compute_metrics log g).map MetricsRow.attempts).sum
      = totalAttempts log g := by
  unfold compute_metrics
  rw [if_neg h, ((List.perm_insertionSort rowOrder _).map MetricsRow.attempts).sum_eq,
    List.map_map]
  rfl

/-- The metrics table of a non-empty log holds exactly one row per distinct
grouping value and none for any other value. -/
theorem compute_metrics_count_key (log : List Event) (g : Event → String)
    (h : log ≠ []) (k : String) :
    ((compute_metrics log g).filter fun r => r.key == k).length =
      if k ∈ log.map g then 1 else 0 := by
  unfold compute_metrics
  rw [if_neg h,
    ((List.perm_insertionSort rowOrder _).filter fun r => r.key == k).length_eq,
    List.filter_map, List.length_map]
  show ((log.map g).dedup.filter fun x => x == k).length = _
  rw [← List.countP_eq_length_filter, ← List.count_eq_countP]
  by_cases hk : k ∈ log.map g
  · rw [if_pos hk]
    exact List.count_eq_one_of_mem ((log.map g).nodup_dedup) (List.mem_dedup.mpr hk)
  · rw [if_neg hk]
    exact List.count_eq_zero_of_not_mem fun hc => hk (List.mem_dedup.mp hc)

/-- The single row of Scenario A's per-play table. -/
def scenarioARow : MetricsRow :=
  { key := "P1", attempts := 2, points := 2, ppp := 1
    frequency := 1, success_rate := 1/2 }

/-- Evaluating the metrics pipeline on Scenario A's log grouped by play:
2 attempts, 2 points, PPP 1, Frequency 1, Success Rate 1/2. -/
theorem compute_metrics_scenarioA :
    compute_metrics scenarioA Event.play = [scenarioARow] := by
  have hrow : mkRow scenarioA Event.play "P1" = scenarioARow := by
    have ha : attemptsOf scenarioA Event.play "P1" = 2 := by decide
    have hp : pointsOf scenarioA Event.play "P1" = 2 := by decide
    have hm : madeOf scenarioA Event.play "P1" = 1 := by decide
    have hs : shotOf scenarioA Event.play "P1" = 2 := by decide
    have ht : freqDenom scenarioA Event.play = 2 := by decide
    unfold mkRow scenarioARow
    rw [ha, hp, hm, hs, ht]
    norm_num [MetricsRow.mk.injEq]
  have hkeys : groupKeys scenarioA Event.play = ["P1"] := by decide
  unfold compute_metrics
  rw [if_neg (by decide : ¬(scenarioA = [])), hkeys]
  simp only [List.map_cons, List.map_nil, hrow]
  rfl

/-- C1: on every non-empty log and grouping key, `compute_metrics` returns
exactly one row per distinct group value, whose `Attempts` is the number of
events of the group, whose `Points` is the sum of their `points` fields and
whose `PPP` is `Points / Attempts`; on Scenario A's two-event log grouped by
play, the `P1` row has Attempts 2, Points 2, PPP 1, Success Rate 1/2 and
Frequency 1. -/
theorem compute_metrics_rows :
    (∀ (log : List Event) (g : Event → String), log ≠ [] →
      (∀ k : String,
        ((compute_metrics log g).filter fun r => r.key == k).length =
          if k ∈ log.map g then 1 else 0) ∧
      (∀ r ∈ compute_metrics log g,
        r.attempts = (log.filter fun e => g e == r.key).length ∧
        r.points = ((log.filter fun e => g e == r.key).map Event.points).sum ∧
        r.ppp = (r.points : ℚ) / (r.attempts : ℚ))) ∧
    compute_metrics scenarioA Event.play = [scenarioARow] := by
  refine ⟨fun log g h => ⟨compute_metrics_count_key log g h, ?_⟩,
    compute_metrics_scenarioA⟩
  intro r hr
  obtain ⟨k, hk, hrow⟩ := (mem_compute_metrics h).mp hr
  subst hrow
  exact ⟨rfl, rfl, rfl⟩

/-- Witness for C1 at Scenario A's log grouped by play. -/
theorem compute_metrics_rows_witness :
    scenarioA ≠ [] ∧
    ((∀ k : String,
        ((compute_metrics scenarioA Event.play).filter fun r => r.key == k).length =
          if k ∈ scenarioA.map Event.play then 1 else 0) ∧
      (∀ r ∈ compute_metrics scenarioA Event.play,
        r.attempts = (scenarioA.filter fun e => Event.play e == r.key).length ∧
        r.points = ((scenarioA.filter fun e => Event.play e == r.key).map Event.points).sum ∧
        r.ppp = (r.points : ℚ) / (r.attempts : ℚ))) :=
  ⟨by decide, compute_metrics_rows.1 scenarioA Event.play (by decide)⟩

/-- C2: the Success Rate of every row of the metrics table is the number of
made shots (`Made 2`/`Made 3`) of the group divided by the number of shot
attempts (`Made 2`/`Made 3`/`Missed 2`/`Missed 3`, fouls excluded from both
counts), and is 0 when the group has no shot attempts. -/
theorem compute_metrics_success_rate (log : List Event) (g : Event → String)
    (r : MetricsRow) (hr : r ∈ compute_metrics log g) :
    r.success_rate =
      if shotOf log g r.key = 0 then 0
      else (madeOf log g r.key : ℚ) / (shotOf log g r.key : ℚ) := by
  by_cases h : log = []
  · subst h
    simp [compute_metrics] at hr
  · obtain ⟨k, hk, hrow⟩ := (mem_compute_metrics h).mp hr
    subst hrow
    rfl

/-- Witness for C2 at the Scenario A row: 1 made shot over 2 shot attempts,
Success Rate 1/2. -/
theorem compute_metrics_success_rate_witness :
    scenarioARow ∈ compute_metrics scenarioA Event.play ∧
    scenarioARow.success_rate =
      if shotOf scenarioA Event.play scenarioARow.key = 0 then 0
      else (madeOf scenarioA Event.play scenarioARow.key : ℚ) /
        (shotOf scenarioA Event.play scenarioARow.key : ℚ) :=
  ⟨by simp [compute_metrics_scenarioA],
   compute_metrics_success_rate scenarioA Event.play scenarioARow
     (by simp [compute_metrics_scenarioA])⟩

/-- C5: the rows of every metrics table are ordered non-increasingly by the
compound key (PPP descending, then Attempts descending): each consecutive
pair either strictly decreases PPP, or keeps PPP and does not increase
Attempts. -/
theorem compute_metrics_sorted (log : List Event) (g : Event → String) :
    List.Chain'
      (fun a b => b.ppp < a.ppp ∨ (a.ppp = b.ppp ∧ b.attempts ≤ a.attempts))
      (compute_metrics log g) := by
  unfold compute_metrics
  split
  · exact List.chain'_nil
  · exact (List.sorted_insertionSort rowOrder _).chain'

/-- Made shots are among shot attempts, so the Success Rate numerator never
exceeds its denominator. -/
theorem madeOf_le_shotOf (log : List Event) (g : Event → String)
    (k : String) : madeOf log g k ≤ shotOf log g k := by
  unfold madeOf shotOf
  refine List.Sublist.length_le (List.monotone_filter_right _ ?_)
  intro e he
  simp only [Bool.and_eq_true, Bool.or_eq_true, isMade, isShot] at he ⊢
  exact ⟨he.1, Or.inl (Or.inl he.2)⟩

/-- C4: for every non-empty log, each row's Frequency is its Attempts
divided by the total Attempts of all rows of the call, the Frequencies sum
to exactly 1, the guarded denominator used for Frequency is never 0 (even
when the total would be 0), and every Success Rate lies in `[0, 1]`. -/
theorem compute_metrics_invariants :
    (∀ (log : List Event) (g : Event → String), log ≠ [] →
      (∀ r ∈ compute_metrics log g,
        r.frequency = (r.attempts : ℚ) /
          (((compute_metrics log g).map MetricsRow.attempts).sum : ℚ)) ∧
      (((compute_metrics log g).map MetricsRow.frequency).sum = 1) ∧
      (∀ r ∈ compute_metrics log g,
        0 ≤ r.success_rate ∧ r.success_rate ≤ 1)) ∧
    (∀ (log : List Event) (g : Event → String), freqDenom log g ≠ 0) := by
  constructor
  · intro log g h
    have hT : totalAttempts log g = log.length := totalAttempts_eq_length log g
    have hT0 : totalAttempts log g ≠ 0 := by
      rw [hT]
      simpa using h
    have hden : freqDenom log g = totalAttempts log g := if_neg hT0
    refine ⟨?_, ?_, ?_⟩
    · intro r hr
      obtain ⟨k, hk, hrow⟩ := (mem_compute_metrics h).mp hr
      subst hrow
      show (attemptsOf log g k : ℚ) / (freqDenom log g : ℚ) = _
      rw [sum_output_attempts log g h, hden]
      rfl
    · unfold compute_metrics
      rw [if_neg h,
        ((List.perm_insertionSort rowOrder _).map MetricsRow.frequency).sum_eq,
        List.map_map]
      show ((groupKeys log g).map fun k =>
        (attemptsOf log g k : ℚ) / (freqDenom log g : ℚ)).sum = 1
      rw [hden]
      have hTQ : ((totalAttempts log g : ℕ) : ℚ) ≠ 0 := Nat.cast_ne_zero.mpr hT0
      simp only [div_eq_mul_inv]
      rw [List.sum_map_mul_right]
      have hcast : ((groupKeys log g).map fun k => ((attemptsOf log g k : ℕ) : ℚ)) =
          (((groupKeys log g).map (attemptsOf log g)).map fun n : ℕ => (n : ℚ)) := by
        rw [List.map_map]
        rfl
      rw [hcast, ← Nat.cast_list_sum]
      exact mul_inv_cancel₀ hTQ
    · intro r hr
      obtain ⟨k, hk, hrow⟩ := (mem_compute_metrics h).mp hr
      subst hrow
      show 0 ≤ (mkRow log g k).success_rate ∧ (mkRow log g k).success_rate ≤ 1
      unfold mkRow
      simp only
      by_cases hs : shotOf log g k = 0
      · rw [if_pos hs]
        norm_num
      · rw [if_neg hs]
        have hspos : (0 : ℚ) < (shotOf log g k : ℚ) :=
          Nat.cast_pos.mpr (Nat.pos_of_ne_zero hs)
        constructor
        · positivity
        · rw [div_le_one hspos]
          exact_mod_cast madeOf_le_shotOf log g k
  · intro log g
    by_cases h : totalAttempts log g = 0 <;> simp [freqDenom, h]

/-- Witness for C4 at Scenario A's non-empty log. -/
theorem compute_metrics_invariants_witness :
    scenarioA ≠ [] ∧
    ((∀ r ∈ compute_metrics scenarioA Event.play,
        r.frequency = (r.attempts : ℚ) /
          (((compute_metrics scenarioA Event.play).map MetricsRow.attempts).sum : ℚ)) ∧
      (((compute_metrics scenarioA Event.play).map MetricsRow.frequency).sum = 1) ∧
      (∀ r ∈ compute_metrics scenarioA Event.play,
        0 ≤ r.success_rate ∧ r.success_rate ≤ 1)) :=
  ⟨by decide, compute_metrics_invariants.1 scenarioA Event.play (by decide)⟩
